import Mathlib

attribute [local semireducible] Rat.add Rat.mul Rat.inv Rat.sub Rat.ofScientific

/-!
Verification of the paywise payroll/commission ingestion core (`app/logic.py`).

The development shallowly embeds the core pipeline:
money parsing (`_to_money` and the local `to_money` variants), the commission
normalizer (`normalize_commission`) with its column-resolution heuristics
(`looks_money`, `looks_name`, `looks_catalog`, alias search, content scoring),
the payroll staff-section processing of `parse_mindbody_payroll_xls`, the
reader dispatchers (`read_payroll_by_totalfor`, `read_commission_sections`),
and the aggregator (`build_payload`).

Modelling conventions:
* Byte buffers and cells are Lean `String`s; decoding (utf-8/utf-16) is the
  identity.  All strings the code cares about are ASCII.
* Python `str` methods (`strip`, `lower`, `startswith`, `endswith`,
  `replace`, `in`, `count`, `isdigit`, `isalpha`) are embedded as structurally
  recursive functions over `List Char` (`pyStrip`, `pyLower`, …), so every
  definition evaluates inside the kernel.
* Python floats are embedded as `ℚ`: all arithmetic the code performs is
  exact on decimal inputs, so the float-tolerance invariants become exact.
* A pandas `DataFrame` of strings is a `Table`: a list of column labels plus
  a list of rows of cells.  Label lookup is first-match (pandas semantics for
  unique labels; the exports the code handles have unique labels).
* pandas / bs4 library calls that decode binary formats (`pd.read_excel`,
  `pd.read_html`, the BeautifulSoup staff-section walk) are abstracted into a
  `PdLib` record of parsing oracles; `none` models a raised exception, which
  the code always catches.  `pd.read_csv` on flat CSV text is embedded
  concretely (`parseCSV`).  Everything downstream of the library calls is
  embedded concretely from the source.
-/

/-- Whitespace for Python `str.strip`. -/
def wsChar (c : Char) : Bool :=
  c = ' ' || c = '\t' || c = '\n' || c = '\r' || c = '\x0b' || c = '\x0c'

/-- ASCII digit test (Python `str.isdigit` on the ASCII content at hand). -/
def isDigitChar (c : Char) : Bool := 48 ≤ c.toNat && c.toNat ≤ 57

/-- ASCII letter test (Python `str.isalpha` on the ASCII content at hand). -/
def isAlphaChar (c : Char) : Bool :=
  (65 ≤ c.toNat && c.toNat ≤ 90) || (97 ≤ c.toNat && c.toNat ≤ 122)

/-- ASCII lower-casing of one character (Python `str.lower`). -/
def lowerChar (c : Char) : Char :=
  if 65 ≤ c.toNat && c.toNat ≤ 90 then Char.ofNat (c.toNat + 32) else c

/-- Strip leading and trailing whitespace from a character list. -/
def trimChars (l : List Char) : List Char :=
  ((l.dropWhile wsChar).reverse.dropWhile wsChar).reverse

/-- Python `s.strip()`. -/
def pyStrip (s : String) : String := String.mk (trimChars s.toList)

/-- Python `s.lower()`. -/
def pyLower (s : String) : String := String.mk (s.toList.map lowerChar)

/-- Substring containment over character lists (Python `pat in s`). -/
def listContains : List Char → List Char → Bool
  | s, pat =>
    pat.isPrefixOf s ||
      match s with
      | [] => false
      | _ :: rest => listContains rest pat

/-- Python `pat in s`. -/
def pyContains (s pat : String) : Bool := listContains s.toList pat.toList

/-- Python `s.startswith(pre)`. -/
def pyStartsWith (s pre : String) : Bool := pre.toList.isPrefixOf s.toList

/-- Python `s.endswith(suf)`. -/
def pyEndsWith (s suf : String) : Bool := suf.toList.isSuffixOf s.toList

/-- Python `s.replace(c, "")` for a one-character pattern: the code only ever
replaces the single characters `$`, `,`, `(`, `)`, `%` by the empty string. -/
def removeChar (c : Char) (s : String) : String :=
  String.mk (s.toList.filter (fun x => x ≠ c))

/-- Python `s.count(" ")` for a single-character needle. -/
def countChar (c : Char) (s : String) : ℕ := s.toList.countP (fun x => x = c)

/-- Split a character list on a separator character. -/
def splitOnCharAux (c : Char) : List Char → List Char → List (List Char)
  | [], cur => [cur.reverse]
  | x :: rest, cur =>
    if x = c then cur.reverse :: splitOnCharAux c rest []
    else splitOnCharAux c rest (x :: cur)

/-- Python `s.split(c)` for a one-character separator. -/
def pySplitChar (c : Char) (s : String) : List String :=
  (splitOnCharAux c s.toList []).map String.mk

/-- Value of a digit list, most significant first. -/
def digitsVal (ds : List Char) : ℕ := ds.foldl (fun a c => a * 10 + (c.toNat - 48)) 0

/-- Python `str.isdigit` : nonempty and all digits. -/
def isBareDigits (s : String) : Bool := s.toList ≠ [] && s.toList.all isDigitChar

/-- Numeric value matched by the regex `-?\d+(?:\.\d+)?` starting at the head
of `l`, assuming the head position is a match start. -/
def parseNumberAt (l : List Char) : ℚ :=
  let p : Bool × List Char := match l with
    | '-' :: rest => (true, rest)
    | _ => (false, l)
  let ds := p.2.takeWhile isDigitChar
  let rest := p.2.dropWhile isDigitChar
  let frac : ℚ := match rest with
    | '.' :: r2 =>
      let fs := r2.takeWhile isDigitChar
      if fs = [] then 0 else (digitsVal fs : ℚ) / (10 ^ fs.length)
    | _ => 0
  let v : ℚ := (digitsVal ds : ℚ) + frac
  if p.1 then -v else v

/-- `re.search(r"-?\d+(?:\.\d+)?", ·)`: value of the first (leftmost,
maximal-munch) signed decimal number, if any.  A match starts at the first
position holding a digit, or a `'-'` immediately followed by a digit. -/
def searchNumber : List Char → Option ℚ
  | [] => none
  | c :: cs =>
    if isDigitChar c then some (parseNumberAt (c :: cs))
    else if c = '-' && (match cs with | d :: _ => isDigitChar d | [] => false) then
      some (parseNumberAt (c :: cs))
    else searchNumber cs

/-- `logic._to_money`: trim, detect the accounting-negative form `(…)`,
strip `$`, `,`, `(`, `)`, extract the first decimal number, apply the sign.
The identical local `to_money` inside `parse_mindbody_payroll_xls` is the
same function. -/
def _to_money (x : String) : ℚ :=
  let t := pyStrip x
  if t = "" then 0
  else
    let neg := pyStartsWith t "(" && pyEndsWith t ")"
    let t := removeChar ')' (removeChar '(' (removeChar ',' (removeChar '$' t)))
    match searchNumber t.toList with
    | none => 0
    | some v => if neg then -v else v

/-- Integer part of the money regex: with a comma it must be
`\d{1,3}(,\d{3})*`; without, `\d+`. -/
def moneyIntPart (a : String) : Bool :=
  match pySplitChar ',' a with
  | [] => false
  | [g0] => isBareDigits g0
  | g0 :: gs =>
    (g0.length ≥ 1 && g0.length ≤ 3 && g0.toList.all isDigitChar) &&
      gs.all (fun g => g.length = 3 && g.toList.all isDigitChar)

/-- Body of the money regex after the optional `( $ -` prefix and `)` suffix:
an integer part plus an optional fraction of exactly two digits. -/
def moneyNum (l : List Char) : Bool :=
  match pySplitChar '.' (String.mk l) with
  | [a] => moneyIntPart a
  | [a, b] => moneyIntPart a && b.length = 2 && b.toList.all isDigitChar
  | _ => false

/-- Drop a single optional leading character. -/
def chompPrefixOpt (l : List Char) (c : Char) : List Char :=
  match l with
  | x :: r => if x = c then r else x :: r
  | [] => []

/-- `looks_money` of `normalize_commission`: full match of
`\(?\$?-?\d{1,3}(,\d{3})*(\.\d{2})?\)?` or `\(?\$?-?\d+(\.\d{2})?\)?`
against the stripped cell. -/
def looks_money (x : String) : Bool :=
  let s := pyStrip x
  let l := s.toList
  let l := chompPrefixOpt l '('
  let l := chompPrefixOpt l '$'
  let l := chompPrefixOpt l '-'
  let l := match l.reverse with
    | ')' :: r => r.reverse
    | _ => l
  moneyNum l

/-- `looks_name` of `normalize_commission`: nonempty and (comma with a letter,
or space with a letter). -/
def looks_name (x : String) : Bool :=
  let s := pyStrip x
  if s = "" then false
  else if pyContains s "," && s.toList.any isAlphaChar then true
  else pyContains s " " && s.toList.any isAlphaChar

/-- Stop-word list of `looks_catalog`, verbatim from the source. -/
def bad_kw : List String :=
  ["service","product","sku","qty","quantity","item","description","benefit","benefits",
   "set","refill","refills","package","membership","member","add-on","addon","brow","lash",
   "gel","lift","tint","classic","hybrid","volume","clear","mask","payscale","pay rate","|"]

/-- `looks_catalog` of `normalize_commission`: catalog/service-like strings
that are not person names. -/
def looks_catalog (x : String) : Bool :=
  let s := pyLower (pyStrip x)
  if s = "" then false
  else if bad_kw.any (fun k => pyContains s k) then true
  else if (s.length > 40 && !pyContains s ",") || countChar ' ' s ≥ 6 then true
  else if s.toList.any isDigitChar && !pyContains s "," then true
  else false

/-! ## Data model -/

/-- A pandas `DataFrame` of strings: column labels plus rows of cells.
Ragged rows read as `""` beyond their length (pandas pads with NaN, and the
code's accessors stringify those to empty). -/
structure Table where
  header : List String
  rows : List (List String)
deriving DecidableEq, Repr

def emptyTable : Table := { header := [], rows := [] }

/-- pandas `df.empty`: true when either axis has length 0. -/
def Table.isEmptyDf (t : Table) : Bool := t.rows.isEmpty || t.header.isEmpty

/-- First index of a column label (pandas label lookup for unique labels). -/
def colIdx? (cols : List String) (c : String) : Option ℕ :=
  cols.findIdx? (fun x => x = c)

/-- The canonical 15-field record (`CanonicalRecord` of the spec): exactly the
columns every normalizer emits.  Numeric fields are `ℚ` (Python floats). -/
structure Record where
  employee_id : String := ""
  employee_name : String := ""
  date : String := ""
  location : String := ""
  source : String := ""
  pay_component : String := ""
  gross_amount : ℚ := 0
  net_amount : ℚ := 0
  commission_pct : ℚ := 0
  commission_amount : ℚ := 0
  tips : ℚ := 0
  bonus : ℚ := 0
  notes : String := ""
  original_row_id : String := ""
  original_source_file : String := ""
deriving DecidableEq, Repr

/-- Oracles for the binary-format library calls the code wraps in
`try/except`: `none` models a raised exception.  `staffSections` abstracts the
BeautifulSoup walk of `parse_mindbody_payroll_xls` that yields, per
`div.staffHeader`, the staff name and the decoded appointments table. -/
structure PdLib where
  readExcelXlsx : String → Option Table
  readExcelXls : String → Option Table
  readHtml : String → Option (List Table)
  staffSections : String → List (String × Table)

/-! ## CSV reading (`pd.read_csv` on flat delimited text) -/

/-- Quote-aware split of one CSV line on commas.  Models the pandas C parser
on simple lines: `"…"` protects commas; doubled-quote escapes are not needed
by any input considered here. -/
def csvSplitAux : List Char → Bool → List Char → List String
  | [], _, cur => [String.mk cur.reverse]
  | c :: rest, inQ, cur =>
    if c = '"' then csvSplitAux rest (!inQ) cur
    else if c = ',' && !inQ then String.mk cur.reverse :: csvSplitAux rest inQ []
    else csvSplitAux rest inQ (c :: cur)

def csvSplitLine (s : String) : List String := csvSplitAux s.toList false []

/-- `pd.read_csv(BytesIO(upload), dtype=str)`: header from the first
non-blank line, one row per further non-blank line; `none` models the
`EmptyDataError` pandas raises on an empty buffer. -/
def parseCSV (s : String) : Option Table :=
  let lines := (pySplitChar '\n' s).map
    (fun l => if pyEndsWith l "\r" then String.mk (l.toList.dropLast) else l)
  match lines.filter (fun l => l ≠ "") with
  | [] => none
  | h :: rest => some { header := csvSplitLine h, rows := rest.map csvSplitLine }

/-! ## `read_commission_sections` -/

/-- First ~1000 bytes contain an HTML or DOCTYPE signature. -/
def htmlSig (upload : String) : Bool :=
  pyContains (pyLower (String.mk (upload.toList.take 1000))) "<html" ||
    pyContains (pyLower (String.mk (upload.toList.take 1000))) "<!doctype"

/-- The generic `pd.read_html(BytesIO(upload))` fallback: first table if any,
else an empty frame; an exception (`none`) degrades to an empty frame. -/
def commFallback (lib : PdLib) (upload : String) : Table :=
  match lib.readHtml upload with
  | some (d :: _) => d
  | some [] => emptyTable
  | none => emptyTable

/-- `logic.read_commission_sections`: dispatch on the lowered filename
extension; every decode failure falls back to the generic HTML scan and
ultimately to an empty frame. -/
def read_commission_sections (lib : PdLib) (upload : String) (filename : String) : Table :=
  let fn := pyLower filename
  if pyEndsWith fn ".csv" then
    match parseCSV upload with
    | some df => df
    | none => commFallback lib upload
  else if pyEndsWith fn ".xlsx" then
    match lib.readExcelXlsx upload with
    | some df => df
    | none => commFallback lib upload
  else if pyEndsWith fn ".xls" then
    if htmlSig upload then
      match lib.readHtml upload with
      | some (d :: _) => d
      | some [] => emptyTable
      | none => commFallback lib upload
    else
      match lib.readExcelXls upload with
      | some df => df
      | none => commFallback lib upload
  else emptyTable

/-! ## `normalize_commission` -/

def name_tokens : List String :=
  ["employee", "employee name", "staff", "staff name", "provider", "service provider"]

def amt_tokens : List String :=
  ["commission amount", "commission", "total commission", "amount", "amt"]

def date_tokens : List String := ["date", "sales date", "transaction date"]

/-- `next((c for c in cols if any(tok in c.lower() for tok in tokens)), None)`. -/
def findAliasCol (cols : List String) (tokens : List String) : Option String :=
  cols.find? (fun c => tokens.any (fun tok => pyContains (pyLower c) tok))

/-- The running-best scan of the content-scoring fallbacks: first strict
maximum over the columns, starting from `init`. -/
def bestByScore (cols : List String) (score : String → ℤ) (init : ℤ) : Option String :=
  (cols.foldl
    (fun (acc : Option String × ℤ) c =>
      if score c > acc.2 then (some c, score c) else acc)
    (none, init)).1

/-- Cells of labelled column `c`, by first-match label lookup. -/
def tableCol (t : Table) (c : String) : List String :=
  match colIdx? t.header c with
  | some i => t.rows.map (fun r => r.getD i "")
  | none => []

/-- `df.head(200)[c]`: the scoring sample. -/
def sampleCol (t : Table) (c : String) : List String :=
  tableCol { header := t.header, rows := t.rows.take 200 } c

/-- Name-likeness score: `looks_name` count minus twice the `looks_catalog`
count over the sample. -/
def nameScore (t : Table) (c : String) : ℤ :=
  ((sampleCol t c).countP looks_name : ℤ) - 2 * ((sampleCol t c).countP looks_catalog : ℤ)

/-- Money-likeness score: `looks_money` count over the sample. -/
def moneyScore (t : Table) (c : String) : ℤ :=
  ((sampleCol t c).countP looks_money : ℤ)

/-- `normalize_commission`'s working table: column labels stripped. -/
def commTidy (df : Table) : Table :=
  { header := df.header.map pyStrip, rows := df.rows }

/-- Resolved employee-name column: header alias first, else best net
name-likeness score (initial best score `-1e9`, so any column beats it). -/
def commEmpCol (df : Table) : Option String :=
  let t := commTidy df
  match findAliasCol t.header name_tokens with
  | some c => some c
  | none => bestByScore t.header (nameScore t) (-1000000000)

/-- Resolved date column (optional). -/
def commDateCol (df : Table) : Option String :=
  findAliasCol (commTidy df).header date_tokens

/-- Resolved commission-amount column: header alias first, else the column
with the most money-looking cells (initial best score `-1`, so any column,
even one scoring `0`, beats it). -/
def commAmtCol (df : Table) : Option String :=
  let t := commTidy df
  match findAliasCol t.header amt_tokens with
  | some c => some c
  | none => bestByScore t.header (moneyScore t) (-1)

/-- The blank/catalog sanitizer applied to each stripped name cell:
`lambda v: "Unassigned" if (v == "" or looks_catalog(v)) else v`. -/
def sanitizeName (v : String) : String :=
  if v = "" || looks_catalog v then "Unassigned" else v

/-- Physical index of the resolved employee-name column
(`emp_col in df.columns` is false exactly when this is `none`). -/
def commEmpIdx (df : Table) : Option ℕ :=
  (commEmpCol df).bind (colIdx? (commTidy df).header)

/-- Physical index of the resolved date column. -/
def commDateIdx (df : Table) : Option ℕ :=
  (commDateCol df).bind (colIdx? (commTidy df).header)

/-- Physical index of the resolved commission-amount column. -/
def commAmtIdx (df : Table) : Option ℕ :=
  (commAmtCol df).bind (colIdx? (commTidy df).header)

/-- `logic.normalize_commission`: empty frames yield nothing; otherwise one
canonical commission record per row, with `commission_amount` through
`_to_money`, sanitized `employee_name`, and `commission_pct` fixed at `0.0`. -/
def normalize_commission (df : Table) (filename : String) : List Record :=
  if df.isEmptyDf then []
  else
    let t := commTidy df
    let empIdx := commEmpIdx df
    let dateIdx := commDateIdx df
    let amtIdx := commAmtIdx df
    t.rows.map (fun r =>
      { employee_name :=
          match empIdx with
          | some j => sanitizeName (pyStrip (r.getD j ""))
          | none => "Unassigned"
        date := match dateIdx with | some j => r.getD j "" | none => ""
        source := "commission"
        pay_component := "commission"
        commission_amount := match amtIdx with | some j => _to_money (r.getD j "") | none => 0
        original_source_file := filename })

/-! ## Payroll staff-section processing (`parse_mindbody_payroll_xls`) -/

/-- `all(str(c).strip().isdigit() for c in cs)`. -/
def all_numeric_headers (cs : List String) : Bool :=
  cs.all (fun c => isBareDigits (pyStrip c))

/-- `pick_contains`: first column whose stripped, lowered header contains one
of the option substrings. -/
def pick_contains (cols : List String) (options : List String) : Option String :=
  cols.find? (fun c => options.any (fun opt => pyContains (pyLower (pyStrip c)) opt))

/-- The per-section column choice of `parse_mindbody_payroll_xls`:
positional (0 / 6 / 8) when every header is a bare digit string, else header
text matching.  Returns `(date_col, base_col, earn_col)`. -/
def payrollChooseCols (cols : List String) :
    Option String × Option String × Option String :=
  if all_numeric_headers cols then
    (if cols.length > 0 then some (cols.getD 0 "") else none,
     if cols.length > 6 then some (cols.getD 6 "") else none,
     if cols.length > 8 then some (cols.getD 8 "") else none)
  else
    (pick_contains cols ["appointment date", "date"],
     pick_contains cols ["base pay", "base"],
     pick_contains cols ["earnings", "net pay", "total pay", "total", "pay"])

/-- Tidying of one staff table: strip column labels, drop columns whose
stripped label is empty, drop rows whose concatenated cells strip to "". -/
def tidySection (df : Table) : Table :=
  let hdr := df.header.map pyStrip
  let keepIdx := (List.range hdr.length).filter (fun i => hdr.getD i "" ≠ "")
  let hdr2 := keepIdx.map (fun i => hdr.getD i "")
  let rows2 := df.rows.map (fun r => keepIdx.map (fun i => r.getD i ""))
  { header := hdr2,
    rows := rows2.filter (fun r =>
      pyStrip (String.mk (r.foldr (fun s acc => s.toList ++ acc) [])) ≠ "") }

/-- Per-staff-section record construction of `parse_mindbody_payroll_xls`:
tidy the table, skip it when empty or when no earnings-like column resolves,
else emit one payroll record per row with `gross_amount` from the base-pay
column and `net_amount` from the earnings column. -/
def processStaffSection (employee_name : String) (df : Table) (filename : String) :
    List Record :=
  let t := tidySection df
  if t.rows.isEmpty then []
  else
    match payrollChooseCols t.header with
    | (date_col, base_col, some ec) =>
      let cellAt := fun (r : List String) (c : String) =>
        match colIdx? t.header c with
        | some i => r.getD i ""
        | none => ""
      t.rows.map (fun r =>
        { employee_name := employee_name
          date := match date_col with | some dc => cellAt r dc | none => ""
          source := "payroll"
          gross_amount := match base_col with | some bc => _to_money (cellAt r bc) | none => 0
          net_amount := _to_money (cellAt r ec)
          original_source_file := filename })
    | (_, _, none) => []

/-- `parse_mindbody_payroll_xls`: one batch of records per staff section with
a nonempty (stripped) staff name; sections without a usable table are already
absent from the `staffSections` oracle. -/
def parse_mindbody_payroll_xls (lib : PdLib) (upload : String) (filename : String) :
    List Record :=
  ((lib.staffSections upload).map (fun s =>
    if pyStrip s.1 = "" then [] else processStaffSection (pyStrip s.1) s.2 filename)).flatten

/-! ## `read_payroll_by_totalfor` -/

/-- Python truthiness chain `a or b` on optional column names (an empty-string
value is falsy). -/
def pyOr (a b : Option String) : Option String :=
  match a with
  | some s => if s = "" then b else some s
  | none => b

/-- `{str(c).strip().lower(): c for c in raw.columns}.get(key)`: dict
comprehension keeps the last column per lowered key. -/
def lookupLastExact (cols : List String) (key : String) : Option String :=
  (cols.filter (fun c => pyLower (pyStrip c) = key)).getLast?

/-- Python `float(t)` on the stripped string: optional sign, decimal digits
with optional fraction, optional exponent; `none` models `ValueError`.
(`inf`/`nan` literals and digit underscores are not modelled; no input
considered here contains them.) -/
def pyFloat? (s : String) : Option ℚ :=
  let l := trimChars s.toList
  let p : ℚ × List Char := match l with
    | '+' :: r => (1, r)
    | '-' :: r => (-1, r)
    | _ => (1, l)
  let ip := p.2.takeWhile isDigitChar
  let l1 := p.2.dropWhile isDigitChar
  let q : List Char × List Char := match l1 with
    | '.' :: r => (r.takeWhile isDigitChar, r.dropWhile isDigitChar)
    | _ => ([], l1)
  if ip = [] && q.1 = [] then none
  else
    let mant : ℚ := (digitsVal ip : ℚ) +
      (if q.1 = [] then 0 else (digitsVal q.1 : ℚ) / (10 ^ q.1.length))
    match q.2 with
    | [] => some (p.1 * mant)
    | 'e' :: r =>
      let e : ℚ × List Char := match r with
        | '+' :: t => (1, t)
        | '-' :: t => (-1, t)
        | _ => (1, r)
      let ed := e.2.takeWhile isDigitChar
      if ed = [] || e.2.dropWhile isDigitChar ≠ [] then none
      else some (p.1 * mant * ((10 : ℚ) ^ ((if e.1 < 0 then -1 else 1) * (digitsVal ed : ℤ))))
    | 'E' :: r =>
      let e : ℚ × List Char := match r with
        | '+' :: t => (1, t)
        | '-' :: t => (-1, t)
        | _ => (1, r)
      let ed := e.2.takeWhile isDigitChar
      if ed = [] || e.2.dropWhile isDigitChar ≠ [] then none
      else some (p.1 * mant * ((10 : ℚ) ^ ((if e.1 < 0 then -1 else 1) * (digitsVal ed : ℤ))))
    | _ => none

/-- The local `to_money` of `read_payroll_by_totalfor`: like `_to_money` but
converts with bare `float(...)`, any failure giving `0.0`. -/
def to_money_totalfor (x : String) : ℚ :=
  let t := pyStrip x
  if t = "" then 0
  else
    let neg := pyStartsWith t "(" && pyEndsWith t ")"
    let t := removeChar ')' (removeChar '(' (removeChar ',' (removeChar '$' t)))
    match pyFloat? t with
    | some v => if neg then -v else v
    | none => 0

/-- The true-Excel fallback body of `read_payroll_by_totalfor`: exact
(stripped, lowered) header lookup with last-wins dict semantics; no
earnings-like column means an empty result. -/
def payrollExcelRows (raw : Table) (filename : String) : List Record :=
  let date_col := pyOr (lookupLastExact raw.header "appointment date")
                       (lookupLastExact raw.header "date")
  let base_col := lookupLastExact raw.header "base pay"
  let earn_col := pyOr (pyOr (pyOr (lookupLastExact raw.header "earnings")
                                   (lookupLastExact raw.header "net pay"))
                             (lookupLastExact raw.header "total pay"))
                       (lookupLastExact raw.header "total")
  match earn_col with
  | none => []
  | some ec =>
    let cellAt := fun (r : List String) (c : String) =>
      match colIdx? raw.header c with
      | some i => r.getD i ""
      | none => ""
    raw.rows.map (fun r =>
      { employee_name := ""
        date := match date_col with | some dc => if dc = "" then "" else cellAt r dc | none => ""
        source := "payroll"
        gross_amount := match base_col with
          | some bc => if bc = "" then 0 else to_money_totalfor (cellAt r bc)
          | none => 0
        net_amount := to_money_totalfor (cellAt r ec)
        original_source_file := filename })

/-- `logic.read_payroll_by_totalfor`: strict HTML-in-.xls parsing when the
buffer carries an HTML signature, else a true-Excel read whose failure
degrades to an empty canonical frame. -/
def read_payroll_by_totalfor (lib : PdLib) (upload : String) (filename : String) :
    List Record :=
  let fn := pyLower filename
  if pyEndsWith fn ".xls" &&
      (pyContains (pyLower upload) "<html" || pyContains (pyLower upload) "<!doctype") then
    parse_mindbody_payroll_xls lib upload filename
  else
    match (if pyEndsWith fn ".xlsx" then lib.readExcelXlsx upload else lib.readExcelXls upload) with
    | none => []
    | some raw => payrollExcelRows raw filename

/-- `logic.normalize_payroll`: the frames produced by
`read_payroll_by_totalfor` always carry all 15 canonical columns (enforced
here by the `Record` type), so the needed-columns check succeeds and
`fillna(0)` is the identity on fully-populated records. -/
def normalize_payroll (df : List Record) (_filename : String) : List Record := df

/-! ## `build_payload` -/

structure EmployeeTotal where
  employee_id : String
  employee_name : String
  payroll_total : ℚ
  commission_total : ℚ
  combined_total : ℚ
deriving DecidableEq, Repr

structure GrandTotals where
  payroll_total : ℚ
  commission_total : ℚ
  combined_total : ℚ
deriving DecidableEq, Repr

structure Breakdown where
  employee_id : String
  employee_name : String
  rows_count : ℕ
  rows : List Record
deriving DecidableEq, Repr

structure Payload where
  employee_totals : List EmployeeTotal
  grand_totals : GrandTotals
  employee_breakdowns : List Breakdown
deriving DecidableEq, Repr

/-- The `(employee_id, employee_name)` grouping key. -/
def recKey (r : Record) : String × String := (r.employee_id, r.employee_name)

/-- Strict lexicographic order on character lists by code point (Python
string comparison). -/
def lexLt : List Char → List Char → Bool
  | _, [] => false
  | [], _ :: _ => true
  | a :: as, b :: bs =>
    if a.toNat < b.toNat then true
    else if b.toNat < a.toNat then false
    else lexLt as bs

/-- Python `a < b` on strings. -/
def pyStrLt (a b : String) : Bool := lexLt a.toList b.toList

/-- Non-strict lexicographic order on `(employee_id, employee_name)` key
tuples (Python tuple comparison, the pandas `groupby` key order). -/
def keyLe (a b : String × String) : Bool :=
  pyStrLt a.1 b.1 || (a.1 = b.1 && (pyStrLt a.2 b.2 || a.2 = b.2))

/-- `keyLe` as a relation. -/
def KeyLE (a b : String × String) : Prop := keyLe a b = true

instance : DecidableRel KeyLE := fun a b =>
  inferInstanceAs (Decidable (keyLe a b = true))

/-- Location override: `if location: p["location"] = location`. -/
def applyLocation (loc : String) (rs : List Record) : List Record :=
  if loc = "" then rs else rs.map (fun r => { r with location := loc })

/-- The concatenated record set of `build_payload` (the `ensure` step and the
numeric coercions are identities on canonical typed records). -/
def mergedRecords (p c : List Record) (loc : String) : List Record :=
  applyLocation loc p ++ applyLocation loc c

/-- The sorted distinct grouping keys pandas `groupby` iterates over. -/
def groupKeys (l : List Record) : List (String × String) :=
  List.insertionSort KeyLE (l.map recKey).dedup

/-- The records of group `k` within the merged set. -/
def groupSub (m : List Record) (k : String × String) : List Record :=
  m.filter (fun r => recKey r = k)

/-- Per-group `payroll_total`: the `groupby(...).agg` sum of `net_amount`. -/
def groupPayrollTotal (m : List Record) (k : String × String) : ℚ :=
  ((groupSub m k).map Record.net_amount).sum

/-- Per-group `commission_total`: the `groupby(...).agg` sum of
`commission_amount`. -/
def groupCommTotal (m : List Record) (k : String × String) : ℚ :=
  ((groupSub m k).map Record.commission_amount).sum

/-- The `employee_totals` frame: one row per sorted distinct group key,
`combined_total = payroll_total + commission_total`. -/
def employeeTotalsOf (m : List Record) : List EmployeeTotal :=
  (groupKeys m).map (fun k =>
    { employee_id := k.1
      employee_name := k.2
      payroll_total := groupPayrollTotal m k
      commission_total := groupCommTotal m k
      combined_total := groupPayrollTotal m k + groupCommTotal m k })

/-- The `grand` dict: sums over all merged records. -/
def grandTotalsOf (m : List Record) : GrandTotals :=
  { payroll_total := (m.map Record.net_amount).sum
    commission_total := (m.map Record.commission_amount).sum
    combined_total := (m.map Record.net_amount).sum +
      (m.map Record.commission_amount).sum }

/-- The per-employee breakdowns: up to 50 sample rows plus a row count, in
the same group iteration order. -/
def breakdownsOf (m : List Record) : List Breakdown :=
  (groupKeys m).map (fun k =>
    { employee_id := k.1
      employee_name := k.2
      rows_count := (groupSub m k).length
      rows := (groupSub m k).take 50 })

/-- `logic.build_payload`: merge, group by `(employee_id, employee_name)`,
sum `net_amount` into `payroll_total` and `commission_amount` into
`commission_total` per group and overall; breakdowns carry up to 50 rows. -/
def build_payload (payroll_norm commission_norm : List Record) (location : String) :
    Payload :=
  let merged := mergedRecords payroll_norm commission_norm location
  { employee_totals := employeeTotalsOf merged
    grand_totals := grandTotalsOf merged
    employee_breakdowns := breakdownsOf merged }

/-- The `ingest` composition of `app/main.py`: read both buffers, normalize,
aggregate. -/
def ingest (lib : PdLib) (pBytes pName cBytes cName loc : String) : Payload :=
  build_payload
    (normalize_payroll (read_payroll_by_totalfor lib pBytes pName) pName)
    (normalize_commission (read_commission_sections lib cBytes cName) cName)
    loc

/-! ## Spec-side definitions for refinement comparison -/

/-- Modelled from the spec: the Aggregator's per-record payroll contribution,
"`net_amount` if `> 0` else `gross_amount`". -/
def spec_payroll_contribution (r : Record) : ℚ :=
  if r.net_amount > 0 then r.net_amount else r.gross_amount

/-- Modelled from the spec: the Aggregator's per-record commission
contribution, "`commission_amount` when `source == \"commission\"`, else 0". -/
def spec_commission_contribution (r : Record) : ℚ :=
  if r.source = "commission" then r.commission_amount else 0

/-- Modelled from the spec: `commission_pct` "parsed from a percent-like
column (strip `%`, normalize values >1 by dividing by 100)". -/
def spec_parse_pct (s : String) : ℚ :=
  let v := _to_money (removeChar '%' s)
  if v > 1 then v / 100 else v

/-- Bool-valued "weakly descending" check for lists of rationals. -/
def sortedDescQ : List ℚ → Bool
  | a :: b :: t => (b ≤ a) && sortedDescQ (b :: t)
  | _ => true

/-! ## Concrete fixtures -/

/-- A `PdLib` in which every library decode raises / finds nothing. -/
def libNone : PdLib :=
  { readExcelXlsx := fun _ => none
    readExcelXls := fun _ => none
    readHtml := fun _ => none
    staffSections := fun _ => [] }

/-- Scenario A input: the commission CSV of the spec. -/
def csvA : String :=
  "Date,Item Name,Sold By,Total\n2024-01-01,Gel Fill,\"Doe, Jane\",42.50"

/-- A one-column commission table with no money-looking cell anywhere. -/
def dfNoMoney : Table := { header := ["Foo"], rows := [["bar"]] }

/-- A payroll staff table with no earnings-like column. -/
def dfNoEarn : Table := { header := ["Foo"], rows := [["1"]] }

/-- A commission table whose name column resolves by header alias but whose
name cell is catalog-like. -/
def dfAlias : Table := { header := ["Employee", "Amt"], rows := [["Gel Tech 2", "5"]] }

/-- A commission table with an explicit percent-like column. -/
def dfPct : Table :=
  { header := ["Employee", "Commission", "Pct"], rows := [["Doe, Jane", "10.00", "50%"]] }

/-- A payroll record with zero net and nonzero gross. -/
def rGross : Record := { employee_name := "A", source := "payroll", gross_amount := 5 }

/-- Two payroll records whose ascending-name order conflicts with descending
combined totals. -/
def rA : Record := { employee_name := "A", source := "payroll", net_amount := 1 }

def rB : Record := { employee_name := "B", source := "payroll", net_amount := 2 }

/-- Column labels used by the C9 witness: nine bare digit headers. -/
def digitCols : List String := ["10", "11", "12", "13", "14", "15", "16", "17", "18"]

/-- The employee-totals entry produced for `[rA]`. -/
def eA : EmployeeTotal :=
  { employee_id := "", employee_name := "A",
    payroll_total := 1, commission_total := 0, combined_total := 1 }

/-- The record `normalize_commission` emits for `dfPct`. -/
def rPct : Record :=
  { employee_name := "Doe, Jane", source := "commission", pay_component := "commission",
    commission_amount := 10, original_source_file := "x.csv" }

/-! # Helper lemmas -/

theorem lexLt_nil_right (l : List Char) : lexLt l [] = false := by
  cases l <;> rfl

theorem lexLt_cons (x y : Char) (xs ys : List Char) :
    lexLt (x :: xs) (y :: ys) =
      if x.toNat < y.toNat then true
      else if y.toNat < x.toNat then false
      else lexLt xs ys := rfl

theorem lexLt_eq_of_false {a b : List Char}
    (h1 : lexLt a b = false) (h2 : lexLt b a = false) : a = b := by
  induction a generalizing b with
  | nil =>
    cases b with
    | nil => rfl
    | cons y ys => simp [lexLt] at h1
  | cons x xs ih =>
    cases b with
    | nil => simp [lexLt] at h2
    | cons y ys =>
      rw [lexLt_cons] at h1 h2
      by_cases hxy : x.toNat < y.toNat
      · rw [if_pos hxy] at h1; exact absurd h1 (by simp)
      · by_cases hyx : y.toNat < x.toNat
        · rw [if_pos hyx] at h2; exact absurd h2 (by simp)
        · rw [if_neg hxy, if_neg hyx] at h1
          rw [if_neg hyx, if_neg hxy] at h2
          have hnat : x.toNat = y.toNat := by omega
          have hx : x = y := Char.eq_of_val_eq (UInt32.toNat.inj hnat)
          rw [hx, ih h1 h2]

theorem lexLt_trans {a b c : List Char}
    (h1 : lexLt a b = true) (h2 : lexLt b c = true) : lexLt a c = true := by
  induction a generalizing b c with
  | nil =>
    cases c with
    | nil =>
      cases b with
      | nil => exact h1
      | cons y ys => rw [lexLt_nil_right] at h2; exact absurd h2 (by simp)
    | cons z zs => simp [lexLt]
  | cons x xs ih =>
    cases b with
    | nil => rw [lexLt_nil_right] at h1; exact absurd h1 (by simp)
    | cons y ys =>
      cases c with
      | nil => rw [lexLt_nil_right] at h2; exact absurd h2 (by simp)
      | cons z zs =>
        rw [lexLt_cons] at h1 h2 ⊢
        by_cases hxy : x.toNat < y.toNat
        · by_cases hyz : y.toNat < z.toNat
          · rw [if_pos (Nat.lt_trans hxy hyz)]
          · rw [if_neg hyz] at h2
            by_cases hzy : z.toNat < y.toNat
            · rw [if_pos hzy] at h2; exact absurd h2 (by simp)
            · rw [if_pos (by omega : x.toNat < z.toNat)]
        · rw [if_neg hxy] at h1
          by_cases hyx : y.toNat < x.toNat
          · rw [if_pos hyx] at h1; exact absurd h1 (by simp)
          · rw [if_neg hyx] at h1
            by_cases hyz : y.toNat < z.toNat
            · rw [if_pos (by omega : x.toNat < z.toNat)]
            · rw [if_neg hyz] at h2
              by_cases hzy : z.toNat < y.toNat
              · rw [if_pos hzy] at h2; exact absurd h2 (by simp)
              · rw [if_neg hzy] at h2
                rw [if_neg (by omega : ¬ x.toNat < z.toNat),
                    if_neg (by omega : ¬ z.toNat < x.toNat)]
                exact ih h1 h2

theorem pyStrLt_eq_of_false {a b : String}
    (h1 : pyStrLt a b = false) (h2 : pyStrLt b a = false) : a = b := by
  have h : a.toList = b.toList := lexLt_eq_of_false h1 h2
  cases a; cases b
  exact congrArg String.mk (by simpa [String.toList] using h)

theorem pyStrLt_trans {a b c : String}
    (h1 : pyStrLt a b = true) (h2 : pyStrLt b c = true) : pyStrLt a c = true :=
  lexLt_trans h1 h2

instance : IsTotal (String × String) KeyLE := by
  constructor
  intro a b
  unfold KeyLE keyLe
  by_cases h1 : pyStrLt a.1 b.1 = true
  · left; simp [h1]
  · by_cases h2 : pyStrLt b.1 a.1 = true
    · right; simp [h2]
    · have e1 : a.1 = b.1 :=
        pyStrLt_eq_of_false (by simpa using h1) (by simpa using h2)
      by_cases h3 : pyStrLt a.2 b.2 = true
      · left; simp [e1, h3]
      · by_cases h4 : pyStrLt b.2 a.2 = true
        · right; simp [e1, h4]
        · have e2 : a.2 = b.2 :=
            pyStrLt_eq_of_false (by simpa using h3) (by simpa using h4)
          left; simp [e1, e2]

instance : IsTrans (String × String) KeyLE := by
  constructor
  intro a b c hab hbc
  unfold KeyLE keyLe at hab hbc ⊢
  simp only [Bool.or_eq_true, Bool.and_eq_true, decide_eq_true_eq] at hab hbc ⊢
  rcases hab with h1 | ⟨e1, h2⟩ <;> rcases hbc with g1 | ⟨f1, g2⟩
  · exact Or.inl (pyStrLt_trans h1 g1)
  · exact Or.inl (f1 ▸ h1)
  · exact Or.inl (e1 ▸ g1)
  · refine Or.inr ⟨e1.trans f1, ?_⟩
    rcases h2 with h2 | h2 <;> rcases g2 with g2 | g2
    · exact Or.inl (pyStrLt_trans h2 g2)
    · exact Or.inl (g2 ▸ h2)
    · exact Or.inl (h2 ▸ g2)
    · exact Or.inr (h2.trans g2)

theorem list_sum_map_add {α : Type} (l : List α) (f g : α → ℚ) :
    (l.map (fun x => f x + g x)).sum = (l.map f).sum + (l.map g).sum := by
  induction l with
  | nil => simp
  | cons a t ih => simp [ih]; ring

theorem list_sum_ite_eq {K : Type} [DecidableEq K] (keys : List K) (a : K) (x : ℚ)
    (hnd : keys.Nodup) (ha : a ∈ keys) :
    (keys.map (fun k => if a = k then x else 0)).sum = x := by
  induction keys with
  | nil => cases ha
  | cons k ks ih =>
    rw [List.nodup_cons] at hnd
    rcases List.mem_cons.mp ha with h | h
    · subst h
      simp only [List.map_cons, List.sum_cons]
      have hz : ∀ y ∈ ks.map (fun k => if a = k then x else 0), y = 0 := by
        intro y hy
        rcases List.mem_map.mp hy with ⟨k', hk', rfl⟩
        have : a ≠ k' := fun e => hnd.1 (e ▸ hk')
        simp [this]
      rw [List.sum_eq_zero hz]
      simp
    · have hne : a ≠ k := fun e => hnd.1 (e ▸ h)
      simp only [List.map_cons, List.sum_cons, if_neg hne]
      rw [ih hnd.2 h, zero_add]

theorem list_sum_fiberwise {α K : Type} [DecidableEq K] (keys : List K) (l : List α)
    (key : α → K) (f : α → ℚ) (hnd : keys.Nodup) (hcov : ∀ x ∈ l, key x ∈ keys) :
    (keys.map (fun k => ((l.filter (fun x => key x = k)).map f).sum)).sum
      = (l.map f).sum := by
  induction l with
  | nil => simp
  | cons a t ih =>
    have ha : key a ∈ keys := hcov a (List.mem_cons_self a t)
    have ht : ∀ x ∈ t, key x ∈ keys := fun x hx => hcov x (List.mem_cons_of_mem a hx)
    have step : ∀ k ∈ keys,
        (((a :: t).filter (fun x => key x = k)).map f).sum
          = (if key a = k then f a else 0) + ((t.filter (fun x => key x = k)).map f).sum := by
      intro k _
      by_cases h : key a = k
      · simp [List.filter_cons, h]
      · simp [List.filter_cons, h]
    rw [List.map_congr_left step, list_sum_map_add,
        list_sum_ite_eq keys (key a) (f a) hnd ha, ih ht]
    simp

theorem groupKeys_nodup (l : List Record) : (groupKeys l).Nodup :=
  (List.perm_insertionSort KeyLE (l.map recKey).dedup).symm.nodup
    (List.nodup_dedup (l.map recKey))

theorem groupKeys_mem {l : List Record} {r : Record} (h : r ∈ l) :
    recKey r ∈ groupKeys l :=
  (List.perm_insertionSort KeyLE (l.map recKey).dedup).mem_iff.mpr
    (List.mem_dedup.mpr (List.mem_map_of_mem recKey h))

theorem groupKeys_sorted (l : List Record) : List.Sorted KeyLE (groupKeys l) :=
  List.sorted_insertionSort KeyLE (l.map recKey).dedup

theorem sanitizeName_ne_empty (v : String) : sanitizeName v ≠ "" := by
  unfold sanitizeName
  split
  · decide
  · rename_i h
    simp only [Bool.or_eq_true, decide_eq_true_eq, not_or] at h
    exact h.1

theorem employeeTotalsOf_combined_sum (m : List Record) :
    ((employeeTotalsOf m).map EmployeeTotal.combined_total).sum
      = (m.map Record.net_amount).sum + (m.map Record.commission_amount).sum := by
  unfold employeeTotalsOf
  rw [List.map_map]
  have he : (EmployeeTotal.combined_total ∘ fun k =>
      ({ employee_id := k.1, employee_name := k.2,
         payroll_total := groupPayrollTotal m k,
         commission_total := groupCommTotal m k,
         combined_total := groupPayrollTotal m k + groupCommTotal m k } : EmployeeTotal))
      = fun k => groupPayrollTotal m k + groupCommTotal m k := rfl
  rw [he, list_sum_map_add]
  unfold groupPayrollTotal groupCommTotal groupSub
  rw [list_sum_fiberwise (groupKeys m) m recKey Record.net_amount
        (groupKeys_nodup m) (fun x hx => groupKeys_mem hx),
      list_sum_fiberwise (groupKeys m) m recKey Record.commission_amount
        (groupKeys_nodup m) (fun x hx => groupKeys_mem hx)]

theorem applyLocation_nil (loc : String) : applyLocation loc [] = [] := by
  unfold applyLocation
  split <;> rfl

theorem mergedRecords_nil (loc : String) : mergedRecords [] [] loc = [] := by
  unfold mergedRecords
  rw [applyLocation_nil]
  rfl

theorem build_payload_nil (loc : String) :
    build_payload [] [] loc =
      { employee_totals := [],
        grand_totals := { payroll_total := 0, commission_total := 0, combined_total := 0 },
        employee_breakdowns := [] } := by
  unfold build_payload
  rw [mergedRecords_nil]
  decide

theorem length_guard_get? (l : List String) (i : ℕ) :
    (if l.length > i then some (l.getD i "") else none) = l.get? i := by
  by_cases h : i < l.length
  · rw [if_pos h, List.get?_eq_get h, List.getD_eq_getElem l "" h]
    rfl
  · rw [if_neg h, eq_comm, List.get?_eq_none]
    omega

/-! # Claim theorems -/

/-- Claim C1: for every pair of normalized payroll and commission record sets
and every location override, the sum of `combined_total` over all
`employee_totals` entries of the Payload returned by `build_payload` equals
`grand_totals.combined_total` (exactly, in the `ℚ` model, hence within
floating tolerance). -/
theorem build_payload_combined_sum (p c : List Record) (loc : String) :
    ((build_payload p c loc).employee_totals.map EmployeeTotal.combined_total).sum
      = (build_payload p c loc).grand_totals.combined_total :=
  employeeTotalsOf_combined_sum (mergedRecords p c loc)

/-- Claim C2: on empty (zero-byte) buffers, with any filenames and location,
the core pipeline (readers, normalizers, `build_payload`) is total and yields
a Payload with empty `employee_totals` and all-zero `grand_totals`.  The
hypotheses record that the pandas binary decoders raise on an empty buffer
(`EmptyDataError` / `ValueError`), which the code catches. -/
theorem ingest_empty_buffers (lib : PdLib) (pName cName loc : String)
    (h1 : lib.readExcelXlsx "" = none) (h2 : lib.readExcelXls "" = none)
    (h3 : lib.readHtml "" = none) :
    (ingest lib "" pName "" cName loc).employee_totals = [] ∧
    (ingest lib "" pName "" cName loc).grand_totals =
      { payroll_total := 0, commission_total := 0, combined_total := 0 } := by
  have hhtml : pyContains (pyLower "") "<html" = false := by decide
  have hdoc : pyContains (pyLower "") "<!doctype" = false := by decide
  have hp : read_payroll_by_totalfor lib "" pName = [] := by
    unfold read_payroll_by_totalfor
    by_cases hx : pyEndsWith (pyLower pName) ".xlsx" = true
    · simp [hhtml, hdoc, hx, h1]
    · simp [hhtml, hdoc, hx, h2]
  have hfb : commFallback lib "" = emptyTable := by
    unfold commFallback
    rw [h3]
  have hc : read_commission_sections lib "" cName = emptyTable := by
    unfold read_commission_sections
    have hcsv : parseCSV "" = none := by decide
    have hsig : htmlSig "" = false := by decide
    by_cases h4 : pyEndsWith (pyLower cName) ".csv" = true
    · simp [h4, hcsv, hfb]
    · by_cases h5 : pyEndsWith (pyLower cName) ".xlsx" = true
      · simp [h4, h5, h1, hfb]
      · by_cases h6 : pyEndsWith (pyLower cName) ".xls" = true
        · simp [h4, h5, h6, hsig, h2, hfb]
        · simp [h4, h5, h6]
  unfold ingest
  rw [hp, hc]
  have hnc : normalize_commission emptyTable cName = [] := rfl
  have hnp : normalize_payroll [] pName = [] := rfl
  rw [hnc, hnp, build_payload_nil]
  exact ⟨rfl, rfl⟩

/-- Witness for C2 at concrete filenames and a concrete failing library. -/
theorem ingest_empty_buffers_witness :
    (ingest libNone "" "payroll.xls" "" "commission.csv" "").employee_totals = [] ∧
    (ingest libNone "" "payroll.xls" "" "commission.csv" "").grand_totals =
      { payroll_total := 0, commission_total := 0, combined_total := 0 } :=
  ingest_empty_buffers libNone "payroll.xls" "commission.csv" "" rfl rfl rfl

/-- Claim C3, corrected.  Counterexample to the claim as stated: in
`dfNoMoney` the single column has money score 0 (no cell looks like money, so
the commission-amount role is unresolvable in the claim's sense), yet the
resolver still substitutes that column as a guess and a record is emitted
instead of the table being discarded. -/
theorem commission_unresolved_amount_still_emits :
    moneyScore (commTidy dfNoMoney) "Foo" = 0 ∧
    commAmtCol dfNoMoney = some "Foo" ∧
    (normalize_commission dfNoMoney "x.csv").length = 1 := by decide

/-- Claim C3, amended: the payroll path does discard a staff section whose
earnings role cannot be resolved, but the commission path never discards a
non-empty table — the amount column always resolves (by alias, or by the
money-scoring fallback whose initial best of `-1` lets even a zero-scoring
column win), and one record is emitted per input row. -/
theorem role_discard_policy :
    (∀ (nm : String) (df : Table) (fn : String),
        (payrollChooseCols (tidySection df).header).2.2 = none →
        processStaffSection nm df fn = []) ∧
    (∀ (df : Table) (fn : String), df.isEmptyDf = false →
        (normalize_commission df fn).length = df.rows.length) := by
  constructor
  · intro nm df fn h
    simp only [processStaffSection]
    split
    · rfl
    · rcases hpc : payrollChooseCols (tidySection df).header with ⟨d, b, e⟩
      rw [hpc] at h
      have he : e = none := h
      subst he
      rfl
  · intro df fn h
    unfold normalize_commission
    rw [h]
    simp [commTidy]

/-- Witness for C3 at concrete fixtures: a section without an earnings-like
column emits nothing on the payroll side, while a commission table without a
single money-like cell still emits one record per row. -/
theorem role_discard_policy_witness :
    processStaffSection "A" dfNoEarn "p.xls" = [] ∧
    (normalize_commission dfNoMoney "c.csv").length = dfNoMoney.rows.length :=
  ⟨role_discard_policy.1 "A" dfNoEarn "p.xls" (by decide),
   role_discard_policy.2 dfNoMoney "c.csv" (by decide)⟩

/-- Claim C4, corrected.  Counterexample to the claim as stated: for a record
with `net_amount = 0` and `gross_amount = 5` the claimed contribution rule
gives 5, but `build_payload` sums plain `net_amount` and reports 0. -/
theorem build_payload_ignores_contribution_rule :
    (build_payload [rGross] [] "").grand_totals.payroll_total = 0 ∧
    (build_payload [rGross] [] "").employee_totals.map EmployeeTotal.payroll_total = [0] ∧
    spec_payroll_contribution rGross = 5 := by decide

/-- Claim C4, amended: per employee and overall, `build_payload` sums plain
`net_amount` into `payroll_total` (never substituting `gross_amount`) and
plain `commission_amount` into `commission_total` (regardless of `source`),
with `combined_total` their sum. -/
theorem build_payload_totals_are_plain_sums (p c : List Record) (loc : String) :
    (build_payload p c loc).grand_totals.payroll_total
        = ((mergedRecords p c loc).map Record.net_amount).sum ∧
    (build_payload p c loc).grand_totals.commission_total
        = ((mergedRecords p c loc).map Record.commission_amount).sum ∧
    ∀ e ∈ (build_payload p c loc).employee_totals,
      e.payroll_total = (((mergedRecords p c loc).filter
          (fun r => recKey r = (e.employee_id, e.employee_name))).map
            Record.net_amount).sum ∧
      e.commission_total = (((mergedRecords p c loc).filter
          (fun r => recKey r = (e.employee_id, e.employee_name))).map
            Record.commission_amount).sum ∧
      e.combined_total = e.payroll_total + e.commission_total := by
  refine ⟨rfl, rfl, ?_⟩
  intro e he
  have he' : e ∈ employeeTotalsOf (mergedRecords p c loc) := he
  rcases List.mem_map.mp he' with ⟨k, _, rfl⟩
  exact ⟨rfl, rfl, rfl⟩

/-- Witness for C4 at a concrete input and a concrete employee entry. -/
theorem build_payload_totals_are_plain_sums_witness :
    eA ∈ (build_payload [rA] [] "").employee_totals ∧
    eA.payroll_total = (((mergedRecords [rA] [] "").filter
        (fun r => recKey r = (eA.employee_id, eA.employee_name))).map
          Record.net_amount).sum ∧
    eA.combined_total = eA.payroll_total + eA.commission_total :=
  ⟨by decide,
   ((build_payload_totals_are_plain_sums [rA] [] "").2.2 eA (by decide)).1,
   ((build_payload_totals_are_plain_sums [rA] [] "").2.2 eA (by decide)).2.2⟩

/-- Claim C5: the money parser is a total deterministic function (it is a
Lean function into `ℚ`, hence total, deterministic and finite) with the
specified values on the four canonical inputs. -/
theorem to_money_specified_values :
    (∀ s : String, ∃ q : ℚ, _to_money s = q) ∧
    _to_money "$1,234.56" = 1234.56 ∧
    _to_money "(50.00)" = -50 ∧
    _to_money "" = 0 ∧
    _to_money "garbage" = 0 :=
  ⟨fun s => ⟨_to_money s, rfl⟩, by decide, by decide, by decide, by decide⟩

/-- Claim C6, corrected.  Counterexample to the claim as stated: with two
payroll records for employees "A" (combined 1) and "B" (combined 2) the
`employee_totals` come out in ascending group-key order `[1, 2]`, which is
not descending by `combined_total`. -/
theorem employee_totals_not_desc_by_combined :
    sortedDescQ ((build_payload [rA, rB] [] "").employee_totals.map
      EmployeeTotal.combined_total) = false := by decide

/-- Claim C6, amended: `build_payload` performs no sort by `combined_total`;
`employee_totals` is ordered ascending by the `(employee_id, employee_name)`
grouping key (the pandas `groupby` key order). -/
theorem employee_totals_sorted_by_group_key (p c : List Record) (loc : String) :
    List.Sorted KeyLE ((build_payload p c loc).employee_totals.map
      (fun e => (e.employee_id, e.employee_name))) := by
  have h : ((build_payload p c loc).employee_totals.map
      (fun e => (e.employee_id, e.employee_name)))
        = groupKeys (mergedRecords p c loc) := by
    show ((employeeTotalsOf (mergedRecords p c loc)).map
      (fun e => (e.employee_id, e.employee_name))) = _
    unfold employeeTotalsOf
    rw [List.map_map]
    have hid : ((fun e : EmployeeTotal => (e.employee_id, e.employee_name)) ∘
        (fun k : String × String =>
          ({ employee_id := k.1, employee_name := k.2,
             payroll_total := groupPayrollTotal (mergedRecords p c loc) k,
             commission_total := groupCommTotal (mergedRecords p c loc) k,
             combined_total := groupPayrollTotal (mergedRecords p c loc) k +
               groupCommTotal (mergedRecords p c loc) k } : EmployeeTotal)))
        = id := by
      funext k
      rfl
    rw [hid, List.map_id]
  rw [h]
  exact groupKeys_sorted _

/-- Claim C7: the Scenario A commission CSV yields exactly one record, named
"Doe, Jane" with `commission_amount = 42.50`, through
`read_commission_sections` and `normalize_commission`. -/
theorem scenarioA_commission_csv (lib : PdLib) :
    ((normalize_commission (read_commission_sections lib csvA "commission.csv")
        "commission.csv").map (fun r => (r.employee_name, r.commission_amount)))
      = [("Doe, Jane", 42.5)] := by
  have hread : read_commission_sections lib csvA "commission.csv" =
      { header := ["Date", "Item Name", "Sold By", "Total"],
        rows := [["2024-01-01", "Gel Fill", "Doe, Jane", "42.50"]] } := rfl
  rw [hread]
  decide

/-- Claim C8, corrected.  Counterexample to the claim as stated: `dfPct`
carries an explicit percent column "50%", the spec's parse rule yields 0.5,
but the emitted record's `commission_pct` is 0. -/
theorem commission_pct_unparsed :
    ((normalize_commission dfPct "x.csv").map Record.commission_pct) = [0] ∧
    ((normalize_commission dfPct "x.csv").map Record.commission_pct)
      ≠ [spec_parse_pct "50%"] := by decide

/-- Claim C8, amended: `normalize_commission` never parses a percent column;
`commission_pct` is `0.0` on every record it emits. -/
theorem commission_pct_always_zero (df : Table) (fn : String) :
    ∀ r ∈ normalize_commission df fn, r.commission_pct = 0 := by
  intro r hr
  unfold normalize_commission at hr
  by_cases h : df.isEmptyDf
  · rw [if_pos h] at hr
    cases hr
  · rw [if_neg h] at hr
    rcases List.mem_map.mp hr with ⟨row, _, rfl⟩
    rfl

/-- Witness for C8 at the concrete percent-column table. -/
theorem commission_pct_always_zero_witness :
    rPct ∈ normalize_commission dfPct "x.csv" ∧ rPct.commission_pct = 0 :=
  ⟨by decide, commission_pct_always_zero dfPct "x.csv" rPct (by decide)⟩

/-- Claim C9: when every (stripped) column header of a payroll staff section
is a bare digit string, the column chooser assigns roles positionally —
column 0 as appointment date, column 6 as base pay, column 8 as earnings —
each present only when the table has enough columns. -/
theorem numeric_headers_positional (cols : List String)
    (h : all_numeric_headers cols = true) :
    payrollChooseCols cols = (cols.get? 0, cols.get? 6, cols.get? 8) := by
  unfold payrollChooseCols
  rw [if_pos h, length_guard_get?, length_guard_get?, length_guard_get?]

/-- Witness for C9 on nine bare-digit headers. -/
theorem numeric_headers_positional_witness :
    all_numeric_headers digitCols = true ∧
    payrollChooseCols digitCols = (digitCols.get? 0, digitCols.get? 6, digitCols.get? 8) :=
  ⟨by decide, numeric_headers_positional digitCols (by decide)⟩

/-- Claim C10: every record emitted by `normalize_commission` has a non-empty
`employee_name`, equal to the blank/catalog-sanitized stripped cell of the
resolved name column (alias-resolved or scored alike, so a legitimate
alias-resolved cell matching the catalog heuristic is overwritten with
"Unassigned"). -/
theorem commission_names_sanitized (df : Table) (fn : String)
    (h : df.isEmptyDf = false) :
    ((normalize_commission df fn).map Record.employee_name
      = df.rows.map (fun row =>
          match commEmpIdx df with
          | some j => sanitizeName (pyStrip (row.getD j ""))
          | none => "Unassigned")) ∧
    ∀ r ∈ normalize_commission df fn, r.employee_name ≠ "" := by
  constructor
  · unfold normalize_commission
    rw [h]
    simp only [Bool.false_eq_true, if_false, commTidy, List.map_map]
    rfl
  · intro r hr
    unfold normalize_commission at hr
    rw [h] at hr
    simp only [Bool.false_eq_true, if_false] at hr
    rcases List.mem_map.mp hr with ⟨row, _, rfl⟩
    simp only
    cases hidx : commEmpIdx df with
    | some j =>
      simp only [hidx]
      exact sanitizeName_ne_empty _
    | none =>
      simp only [hidx]
      decide

/-- Witness for C10 at `dfAlias`, whose name column resolves by header alias
yet whose catalog-like cell "Gel Tech 2" is overwritten with "Unassigned". -/
theorem commission_names_sanitized_witness :
    dfAlias.isEmptyDf = false ∧
    ((normalize_commission dfAlias "f.csv").map Record.employee_name
      = dfAlias.rows.map (fun row =>
          match commEmpIdx dfAlias with
          | some j => sanitizeName (pyStrip (row.getD j ""))
          | none => "Unassigned")) ∧
    (normalize_commission dfAlias "f.csv").map Record.employee_name = ["Unassigned"] :=
  ⟨by decide, (commission_names_sanitized dfAlias "f.csv" (by decide)).1, by decide⟩
